import Mathlib

/-!
# Verification of the ATLAS library server (`src/server.js`)

A shallow embedding of the core of the server: the item store (create /
upload / update / delete / get), the query engine (filter, sort,
paginate), the category and tag taxonomy, and the upload-filename
sanitisation.  JavaScript strings are Lean `String`s, JS numbers used as
counters/sizes are `Int`, timestamps (`new Date().toISOString()`) are
`Nat` millisecond clocks (ISO-8601 order coincides with chronological
order), and JS `undefined`/`null` field absence is `Option`.
-/

/-- JS truthiness of a string: `""` is falsy, every other string truthy. -/
def jsTruthy (s : String) : Bool := !s.isEmpty

/-- `x || d` for an optional string (absent or falsy `""` falls back to `d`),
as in `type || 'note'` or `description || ''`. -/
def strOr (o : Option String) (d : String) : String :=
  match o with
  | some s => if jsTruthy s then s else d
  | none => d

/-- `x || null` for an optional string: a falsy `""` becomes `null`,
as in `url: url || null`. -/
def strOrNull (o : Option String) : Option String :=
  match o with
  | some s => if jsTruthy s then some s else none
  | none => none

/-- `needle` is a prefix of `hay` (character lists). -/
def isPrefixB : List Char → List Char → Bool
  | [], _ => true
  | _ :: _, [] => false
  | a :: as, b :: bs => a == b && isPrefixB as bs

/-- `needle` occurs contiguously in `hay`. -/
def containsAux (needle : List Char) : List Char → Bool
  | [] => needle.isEmpty
  | c :: rest => isPrefixB needle (c :: rest) || containsAux needle rest

/-- JS `hay.includes(needle)`. -/
def strIncludes (hay needle : String) : Bool := containsAux needle.data hay.data

/-- JS `s.toLowerCase()` (character-wise ASCII lowering). -/
def lowerStr (s : String) : String := ⟨s.data.map Char.toLower⟩

/-- JS `s.startsWith(p)`. -/
def strStartsWith (s p : String) : Bool := isPrefixB p.data s.data

/-- JS `s.endsWith(p)`. -/
def strEndsWith (s p : String) : Bool := isPrefixB p.data.reverse s.data.reverse

/-- JS whitespace for `trim`. -/
def isWSChar (c : Char) : Bool := c == ' ' || c == '\t' || c == '\n' || c == '\r'

/-- JS `s.trim()`. -/
def trimStr (s : String) : String :=
  ⟨((s.data.dropWhile isWSChar).reverse.dropWhile isWSChar).reverse⟩

/-- Split a character list at every occurrence of `c`. -/
def splitAux (c : Char) : List Char → List Char → List (List Char)
  | [], acc => [acc.reverse]
  | x :: xs, acc => if x == c then acc.reverse :: splitAux c xs [] else splitAux c xs (x :: acc)

/-- JS `s.split(c)` for a one-character separator. -/
def splitOnChar (c : Char) (s : String) : List String :=
  (splitAux c s.data []).map List.asString

/-- Lexicographic comparison of character lists (ASCII code points), the
model of `a.title.localeCompare(b.title) <= 0`. -/
def lexLE : List Char → List Char → Bool
  | [], _ => true
  | _ :: _, [] => false
  | a :: as, b :: bs => if a < b then true else if b < a then false else lexLE as bs

/-- The `file` sub-record attached to uploaded items
(`{originalName, filename, path, mimetype, size}` in `server.js`). -/
structure FileRec where
  originalName : String
  filename : String
  path : String
  mimetype : String
  size : Int
deriving DecidableEq, Repr

/-- A catalog record, the shape built by `POST /api/library` and
`POST /api/library/upload` in `server.js`. -/
structure Item where
  id : String
  itemType : String
  fileType : Option String := none
  title : String
  description : String
  url : Option String := none
  content : Option String := none
  category : String
  tags : List String
  country : Option String := none
  source : Option String := none
  file : Option FileRec := none
  textPreview : Option String := none
  created : Nat
  updated : Option Nat := none
  views : Nat
  starred : Bool
deriving DecidableEq, Repr

/-- The `stats` object of the library document. -/
structure Stats where
  totalItems : Int
  totalFiles : Int
  totalLinks : Int
  totalSize : Int
deriving DecidableEq, Repr

/-- The persisted library document `{items, stats}` (the `lastUpdated`
bookkeeping timestamp is not modelled; no claim mentions it). -/
structure LibDB where
  items : List Item
  stats : Stats
deriving DecidableEq, Repr

/-- The freshly initialised library document written by `initDatabase`. -/
def emptyDB : LibDB :=
  { items := [], stats := { totalItems := 0, totalFiles := 0, totalLinks := 0, totalSize := 0 } }

/-- Request body of `POST /api/library` (all fields optional in JSON). -/
structure CreateBody where
  title : Option String := none
  description : Option String := none
  itemType : Option String := none
  url : Option String := none
  content : Option String := none
  category : Option String := none
  tags : Option (List String) := none
  country : Option String := none
  source : Option String := none
deriving DecidableEq, Repr

/-- The item built by `POST /api/library` (lines 255-270 of `server.js`);
`nid` stands for `generateId()` and `now` for `new Date()`. -/
def mkCreateItem (b : CreateBody) (nid : String) (now : Nat) : Item :=
  { id := nid
    itemType := strOr b.itemType "note"
    title := strOr b.title ""
    description := strOr b.description ""
    url := strOrNull b.url
    content := strOrNull b.content
    category := strOr b.category "other"
    tags := b.tags.getD []
    country := strOrNull b.country
    source := strOrNull b.source
    created := now
    updated := none
    views := 0
    starred := false }

/-- `POST /api/library`: reject when `!title`, otherwise unshift the new
item and bump `totalItems` (and `totalLinks` when the raw `type` equals
`'link'`).  Returns the new document and the created item. -/
def createItem (db : LibDB) (b : CreateBody) (nid : String) (now : Nat) :
    Option (LibDB × Item) :=
  if jsTruthy (strOr b.title "") then
    let it := mkCreateItem b nid now
    let st := db.stats
    let st := { st with totalItems := st.totalItems + 1 }
    let st := if b.itemType = some "link" then { st with totalLinks := st.totalLinks + 1 } else st
    some ({ items := it :: db.items, stats := st }, it)
  else none

/-- The multipart file record produced by multer (`req.file`). -/
structure UploadedFile where
  originalname : String
  filename : String
  mimetype : String
  size : Int
deriving DecidableEq, Repr

/-- Metadata fields of `POST /api/library/upload`; `tags` arrives either
as a JSON array or as a comma-separated string. -/
structure UploadMeta where
  title : Option String := none
  description : Option String := none
  category : Option String := none
  tags : Option (List String ⊕ String) := none
  country : Option String := none
  source : Option String := none
deriving DecidableEq, Repr

/-- `tags ? (Array.isArray(tags) ? tags : tags.split(',').map(t => t.trim())) : []`;
an empty string is falsy and yields `[]`. -/
def uploadTags (t : Option (List String ⊕ String)) : List String :=
  match t with
  | none => []
  | some (Sum.inl l) => l
  | some (Sum.inr s) => if jsTruthy s then (splitOnChar ',' s).map trimStr else []

/-- `getFileType(mimetype, filename)` of `server.js` (lines 165-175). -/
def getFileType (mimetype filename : String) : String :=
  if strIncludes mimetype "pdf" then "pdf"
  else if strIncludes mimetype "word" || strEndsWith filename ".doc" || strEndsWith filename ".docx" then "word"
  else if strIncludes mimetype "excel" || strIncludes mimetype "spreadsheet" then "excel"
  else if strIncludes mimetype "powerpoint" || strIncludes mimetype "presentation" then "powerpoint"
  else if strStartsWith mimetype "image/" then "image"
  else if strStartsWith mimetype "video/" then "video"
  else if strStartsWith mimetype "audio/" then "audio"
  else if strIncludes mimetype "text" || strIncludes mimetype "markdown" then "text"
  else "file"

/-- `extractTextPreview`: for text-like mimetypes, the first 500 characters
of the stored blob (`blob = none` models an unreadable file, swallowed). -/
def extractTextPreview (blob : Option String) (mimetype : String) : Option String :=
  if strStartsWith mimetype "text/" || strIncludes mimetype "json" then
    blob.map (fun c => ⟨c.data.take 500⟩)
  else none

/-- The item built by `POST /api/library/upload` (lines 291-313). -/
def mkUploadItem (f : UploadedFile) (m : UploadMeta) (blob : Option String)
    (nid : String) (now : Nat) : Item :=
  { id := nid
    itemType := "file"
    fileType := some (getFileType f.mimetype f.originalname)
    title := strOr m.title f.originalname
    description := strOr m.description ""
    category := strOr m.category "other"
    tags := uploadTags m.tags
    country := strOrNull m.country
    source := strOrNull m.source
    file := some { originalName := f.originalname, filename := f.filename,
                   path := "/uploads/" ++ f.filename, mimetype := f.mimetype, size := f.size }
    textPreview := extractTextPreview blob f.mimetype
    created := now
    updated := none
    views := 0
    starred := false }

/-- `POST /api/library/upload` on a present file: unshift the item, bump
`totalItems`, `totalFiles`, and `totalSize += req.file.size`. -/
def uploadItem (db : LibDB) (f : UploadedFile) (m : UploadMeta) (blob : Option String)
    (nid : String) (now : Nat) : LibDB × Item :=
  let it := mkUploadItem f m blob nid now
  ({ items := it :: db.items
     stats := { totalItems := db.stats.totalItems + 1
                totalFiles := db.stats.totalFiles + 1
                totalLinks := db.stats.totalLinks
                totalSize := db.stats.totalSize + f.size } }, it)

/-- `items.findIndex` followed by `items.splice(index, 1)`: remove the
first item satisfying `p`, returning it and the remaining list. -/
def removeFirst (p : Item → Bool) : List Item → Option (Item × List Item)
  | [] => none
  | x :: xs =>
    if p x then some (x, xs)
    else (removeFirst p xs).map (fun r => (r.1, x :: r.2))

/-- `DELETE /api/library/:id` (lines 351-375): 404 when the id is absent;
otherwise decrement `totalFiles`/`totalSize` when the item has a `file`
sub-record, decrement `totalLinks` when its type is `'link'`, splice it
out and decrement `totalItems`. -/
def deleteItem (db : LibDB) (did : String) : Option LibDB :=
  match removeFirst (fun i => i.id == did) db.items with
  | none => none
  | some (it, rest) =>
    let st := db.stats
    let st := match it.file with
      | some f => { st with totalFiles := st.totalFiles - 1, totalSize := st.totalSize - f.size }
      | none => st
    let st := if it.itemType = "link" then { st with totalLinks := st.totalLinks - 1 } else st
    some { items := rest, stats := { st with totalItems := st.totalItems - 1 } }

/-- One mutating request against the library document. -/
inductive Op where
  | create (b : CreateBody) (nid : String) (now : Nat)
  | upload (f : UploadedFile) (m : UploadMeta) (blob : Option String) (nid : String) (now : Nat)
  | delete (did : String)
deriving Repr

/-- Apply one operation; a failed operation (400/404) leaves the stored
document unchanged. -/
def applyOp (db : LibDB) : Op → LibDB
  | .create b nid now => match createItem db b nid now with
    | some (db', _) => db'
    | none => db
  | .upload f m blob nid now => (uploadItem db f m blob nid now).1
  | .delete did => (deleteItem db did).getD db

/-- Apply a sequence of operations from left to right. -/
def applyOps (db : LibDB) (ops : List Op) : LibDB :=
  ops.foldl applyOp db

/-- The stats recomputed by scanning `items` from scratch, as the spec's
invariant section prescribes. -/
def recomputeStats (items : List Item) : Stats :=
  { totalItems := items.length
    totalFiles := (items.filter (fun i => i.itemType == "file")).length
    totalLinks := (items.filter (fun i => i.itemType == "link")).length
    totalSize := ((items.filterMap Item.file).map FileRec.size).sum }

/-- The stored counters agree with a from-scratch scan. -/
def statsOK (db : LibDB) : Prop := db.stats = recomputeStats db.items

/-- The `search` predicate of `GET /api/library` (lines 203-211): the
query is lowercased once and checked as a substring of the lowercased
`title`, `description`, any element of `tags`, or `content`; absent
optional fields are non-matching. -/
def itemMatchesSearch (s : String) (i : Item) : Bool :=
  let q := lowerStr s
  strIncludes (lowerStr i.title) q
  || strIncludes (lowerStr i.description) q
  || i.tags.any (fun t => strIncludes (lowerStr t) q)
  || (match i.content with | some c => strIncludes (lowerStr c) q | none => false)

/-- The predicate of `GET /api/search` (lines 439-447); unlike the list
filter it also checks `textPreview`. -/
def searchEndpointMatch (s : String) (i : Item) : Bool :=
  let q := lowerStr s
  strIncludes (lowerStr i.title) q
  || strIncludes (lowerStr i.description) q
  || i.tags.any (fun t => strIncludes (lowerStr t) q)
  || (match i.content with | some c => strIncludes (lowerStr c) q | none => false)
  || (match i.textPreview with | some c => strIncludes (lowerStr c) q | none => false)

/-- Query parameters of `GET /api/library`; all arrive as raw strings. -/
structure ListQuery where
  search : Option String := none
  category : Option String := none
  tag : Option String := none
  qtype : Option String := none
  sort : Option String := none
  limit : Option String := none
  offset : Option String := none
deriving DecidableEq, Repr

/-- The filter block of `GET /api/library` (lines 202-214): every present
truthy parameter is AND-combined. -/
def filterStage (q : ListQuery) (items : List Item) : List Item :=
  let items := match q.search with
    | some s => if jsTruthy s then items.filter (itemMatchesSearch s) else items
    | none => items
  let items := match q.category with
    | some c => if jsTruthy c then items.filter (fun i => i.category == c) else items
    | none => items
  let items := match q.tag with
    | some t => if jsTruthy t then items.filter (fun i => i.tags.contains t) else items
    | none => items
  let items := match q.qtype with
    | some t => if jsTruthy t then items.filter (fun i => i.itemType == t) else items
    | none => items
  items

/-- Comparator of `sort=oldest`: ascending `created`. -/
def createdLE (a b : Item) : Prop := a.created ≤ b.created

/-- Comparator of the default branch: descending `created` (newest first). -/
def createdGE (a b : Item) : Prop := b.created ≤ a.created

/-- Comparator of `sort=title`: ascending `title`. -/
def titleLE (a b : Item) : Prop := lexLE a.title.data b.title.data = true

instance : DecidableRel createdLE :=
  fun a b => inferInstanceAs (Decidable (a.created ≤ b.created))

instance : DecidableRel createdGE :=
  fun a b => inferInstanceAs (Decidable (b.created ≤ a.created))

instance : DecidableRel titleLE :=
  fun a b => inferInstanceAs (Decidable (lexLE a.title.data b.title.data = true))

instance : IsTotal Item createdLE := ⟨fun a b => Nat.le_total a.created b.created⟩

instance : IsTrans Item createdLE := ⟨fun _ _ _ h h' => Nat.le_trans h h'⟩

instance : IsTotal Item createdGE := ⟨fun a b => (Nat.le_total b.created a.created).symm.imp id id |>.symm⟩

instance : IsTrans Item createdGE := ⟨fun _ _ _ h h' => Nat.le_trans h' h⟩

lemma lexLE_total : ∀ x y : List Char, lexLE x y = true ∨ lexLE y x = true
  | [], _ => Or.inl rfl
  | _ :: _, [] => Or.inr rfl
  | a :: as, b :: bs => by
    rcases lt_trichotomy a b with h | h | h
    · left
      simp [lexLE, h]
    · subst h
      rcases lexLE_total as bs with ih | ih
      · left
        simp [lexLE, lt_irrefl, ih]
      · right
        simp [lexLE, lt_irrefl, ih]
    · right
      simp [lexLE, h]

lemma lexLE_trans : ∀ x y z : List Char,
    lexLE x y = true → lexLE y z = true → lexLE x z = true
  | [], _, _, _, _ => rfl
  | _ :: _, [], _, h, _ => by simp [lexLE] at h
  | _ :: _, _ :: _, [], _, h => by simp [lexLE] at h
  | a :: as, b :: bs, c :: cs, h₁, h₂ => by
    simp only [lexLE] at h₁ h₂ ⊢
    by_cases hab : a < b
    · by_cases hbc : b < c
      · simp [lt_trans hab hbc]
      · by_cases hcb : c < b
        · rw [if_neg hbc, if_pos hcb] at h₂
          exact absurd h₂ (by simp)
        · have hbc' : b = c := le_antisymm (le_of_not_lt hcb) (le_of_not_lt hbc)
          subst hbc'
          simp [hab]
    · by_cases hba : b < a
      · rw [if_neg hab, if_pos hba] at h₁
        exact absurd h₁ (by simp)
      · have hab' : a = b := le_antisymm (le_of_not_lt hba) (le_of_not_lt hab)
        subst hab'
        rw [if_neg (lt_irrefl a), if_neg (lt_irrefl a)] at h₁
        by_cases hac : a < c
        · simp [hac]
        · by_cases hca : c < a
          · rw [if_neg hac, if_pos hca] at h₂
            exact absurd h₂ (by simp)
          · have hac' : a = c := le_antisymm (le_of_not_lt hca) (le_of_not_lt hac)
            subst hac'
            rw [if_neg (lt_irrefl a), if_neg (lt_irrefl a)] at h₂
            rw [if_neg (lt_irrefl a), if_neg (lt_irrefl a)]
            exact lexLE_trans as bs cs h₁ h₂

instance : IsTotal Item titleLE := ⟨fun a b => lexLE_total a.title.data b.title.data⟩

instance : IsTrans Item titleLE :=
  ⟨fun a b c => lexLE_trans a.title.data b.title.data c.title.data⟩

/-- The sort block of `GET /api/library` (lines 216-223); JS `Array.sort`
is stable, modelled by a stable insertion sort on the comparator's
preorder. -/
def sortStage (sort : Option String) (items : List Item) : List Item :=
  if sort = some "oldest" then List.insertionSort createdLE items
  else if sort = some "title" then List.insertionSort titleLE items
  else List.insertionSort createdGE items

/-- The value of a decimal digit run, most significant first. -/
def digitsToNat (ds : List Char) : Nat :=
  ds.foldl (fun a c => a * 10 + (c.toNat - 48)) 0

/-- A hexadecimal digit. -/
def isHexDigitB (c : Char) : Bool :=
  decide ('0' ≤ c ∧ c ≤ '9') || decide ('a' ≤ c ∧ c ≤ 'f') || decide ('A' ≤ c ∧ c ≤ 'F')

/-- The value of one hexadecimal digit. -/
def hexVal (c : Char) : Nat :=
  if '0' ≤ c ∧ c ≤ '9' then c.toNat - 48
  else if 'a' ≤ c ∧ c ≤ 'f' then c.toNat - 87
  else c.toNat - 55

/-- The value of a hexadecimal digit run, most significant first. -/
def hexDigitsToNat (ds : List Char) : Nat :=
  ds.foldl (fun a c => a * 16 + hexVal c) 0

/-- The unsigned part of JS `parseInt` with no radix argument: a
`0x`/`0X` prefix switches to base 16 (NaN when no hex digit follows),
anything else takes the longest decimal-digit prefix (NaN when empty). -/
def parseUnsigned (cs : List Char) : Option Nat :=
  match cs with
  | '0' :: x :: rest =>
    if x == 'x' || x == 'X' then
      let ds := rest.takeWhile isHexDigitB
      if ds.isEmpty then none else some (hexDigitsToNat ds)
    else
      let ds := (('0' : Char) :: x :: rest).takeWhile Char.isDigit
      if ds.isEmpty then none else some (digitsToNat ds)
  | _ =>
    let ds := cs.takeWhile Char.isDigit
    if ds.isEmpty then none else some (digitsToNat ds)

/-- JS `parseInt(s)`: skip leading whitespace, optional sign, then an
unsigned numeral (hex when `0x`-prefixed, else decimal); `none` models
`NaN`. -/
def parseIntJS (s : String) : Option Int :=
  let cs := s.data.dropWhile isWSChar
  match cs with
  | '-' :: rest => (parseUnsigned rest).map (fun n => -(n : Int))
  | '+' :: rest => (parseUnsigned rest).map (fun n => (n : Int))
  | _ => (parseUnsigned cs).map (fun n => (n : Int))

/-- `parseInt(x) || d`: an absent parameter, a `NaN`, and a parsed `0`
all fall back to `d`. -/
def parseIntOr (o : Option String) (d : Int) : Int :=
  match o with
  | some s => match parseIntJS s with
    | some n => if n = 0 then d else n
    | none => d
  | none => d

/-- JS `Array.prototype.slice(s, e)`: negative indices count from the
end, and the window is clamped into the array. -/
def jsSlice {α : Type} (l : List α) (s e : Int) : List α :=
  let n : Int := l.length
  let s' := if s < 0 then max (n + s) 0 else min s n
  let e' := if e < 0 then max (n + e) 0 else min e n
  (l.drop s'.toNat).take (e' - s').toNat

/-- Response of `GET /api/library`. -/
structure ListResult where
  items : List Item
  total : Nat
  offset : Int
  limit : Int
deriving DecidableEq, Repr

/-- `GET /api/library` (lines 194-232): filter, sort, then paginate with
`start = parseInt(offset) || 0`, `count = parseInt(limit) || 50`,
`items.slice(start, start + count)`; `total` is taken before slicing. -/
def listItems (db : LibDB) (q : ListQuery) : ListResult :=
  let items := filterStage q db.items
  let items := sortStage q.sort items
  let total := items.length
  let start := parseIntOr q.offset 0
  let count := parseIntOr q.limit 50
  { items := jsSlice items start (start + count), total := total,
    offset := start, limit := count }

/-- `GET /api/search` (lines 432-450): empty query short-circuits;
otherwise filter with `searchEndpointMatch` and return the first 50
matches plus the full match count. -/
def apiSearch (db : LibDB) (q : String) : List Item × Nat :=
  if jsTruthy q then
    let ms := db.items.filter (searchEndpointMatch q)
    (jsSlice ms 0 50, ms.length)
  else ([], 0)

/-- `findIndex` then in-place mutation of the found element: replace the
first item satisfying `p` by `f` of it, returning the new list and the
mutated item. -/
def updateFirst (p : Item → Bool) (f : Item → Item) : List Item → Option (List Item × Item)
  | [] => none
  | x :: xs =>
    if p x then some (f x :: xs, f x)
    else (updateFirst p f xs).map (fun r => (x :: r.1, r.2))

/-- `GET /api/library/:id` (lines 235-246): find the item, set
`views = (views || 0) + 1`, persist the whole document, and respond with
the mutated item. -/
def getItem (db : LibDB) (gid : String) : Option (LibDB × Item) :=
  (updateFirst (fun i => i.id == gid) (fun i => { i with views := i.views + 1 }) db.items).map
    (fun r => ({ db with items := r.1 }, r.2))

/-- Request body of `PUT /api/library/:id`: the outer `Option` is JSON
presence (`!== undefined`), the inner `Option` of nullable fields is
JSON `null`.  `url` can be supplied but the handler never reads it. -/
structure UpdateBody where
  title : Option String := none
  description : Option String := none
  category : Option String := none
  tags : Option (List String) := none
  country : Option (Option String) := none
  source : Option (Option String) := none
  content : Option (Option String) := none
  starred : Option Bool := none
  url : Option (Option String) := none
deriving DecidableEq, Repr

/-- The field-by-field overwrite of `PUT /api/library/:id` (lines
332-343): exactly `title, description, category, tags, country, source,
content, starred` are copied when present, then `updated` is set. -/
def applyUpdate (b : UpdateBody) (now : Nat) (i : Item) : Item :=
  { i with
    title := b.title.getD i.title
    description := b.description.getD i.description
    category := b.category.getD i.category
    tags := b.tags.getD i.tags
    country := b.country.getD i.country
    source := b.source.getD i.source
    content := b.content.getD i.content
    starred := b.starred.getD i.starred
    updated := some now }

/-- `PUT /api/library/:id`: 404 when the id is absent, else mutate the
first matching item and respond with it. -/
def updateItem (db : LibDB) (uid : String) (b : UpdateBody) (now : Nat) :
    Option (LibDB × Item) :=
  (updateFirst (fun i => i.id == uid) (applyUpdate b now) db.items).map
    (fun r => ({ db with items := r.1 }, r.2))

/-- A category record `{id, name, icon, color}`. -/
structure Category where
  id : String
  name : String
  icon : String
  color : String
deriving DecidableEq, Repr

/-- `name.toLowerCase().replace(/[^a-z0-9]/g, '-')` (line 390). -/
def slugify (name : String) : String :=
  ⟨(lowerStr name).data.map
    (fun c => if ('a' ≤ c ∧ c ≤ 'z') ∨ ('0' ≤ c ∧ c ≤ '9') then c else '-')⟩

/-- `POST /api/categories` (lines 385-399): build the slug-id category
and `push` it onto the stored list (no lookup of an existing entry). -/
def addCategory (cats : List Category) (name : String) (icon color : Option String) :
    List Category × Category :=
  let c : Category := { id := slugify name, name := name,
                        icon := strOr icon "📁", color := strOr color "#666666" }
  (cats ++ [c], c)

/-- `file.originalname.replace(/[^a-zA-Z0-9.-]/g, '_')` (line 62). -/
def sanitizeName (s : String) : String :=
  ⟨s.data.map
    (fun c => if ('a' ≤ c ∧ c ≤ 'z') ∨ ('A' ≤ c ∧ c ≤ 'Z') ∨ ('0' ≤ c ∧ c ≤ '9')
                 ∨ c = '.' ∨ c = '-' then c else '_')⟩

/-- One hex digit of `Buffer.toString('hex')`. -/
def hexDigit (n : Nat) : Char := if n < 10 then Char.ofNat (48 + n) else Char.ofNat (87 + n)

/-- Hex encoding of one byte, high nibble first. -/
def byteToHex (b : Fin 256) : List Char := [hexDigit (b.val / 16), hexDigit (b.val % 16)]

/-- `crypto.randomBytes(k).toString('hex')` on an explicit byte list. -/
def hexEncode (bs : List (Fin 256)) : String := ⟨bs.foldr (fun b acc => byteToHex b ++ acc) []⟩

/-- The multer storage filename `${uniqueId}_${safeName}` (line 63). -/
def storageFilename (bs : List (Fin 256)) (originalname : String) : String :=
  hexEncode bs ++ "_" ++ sanitizeName originalname

/-- An HTTP response of one of the handlers, abstracted to what the
claims need: a JSON success payload, an error status with message, or an
uncaught exception (`crash`) handed to the framework. -/
inductive ApiResult where
  | ok (item : Item)
  | okList (r : ListResult) (stats : Stats)
  | err (status : Nat) (msg : String)
  | crash
deriving DecidableEq, Repr

/-- `GET /api/library` including its store read: a failed `loadDB`
(`load = none`) answers 500 `Database error`. -/
def listHandler (load : Option LibDB) (q : ListQuery) : ApiResult :=
  match load with
  | none => .err 500 "Database error"
  | some db => .okList (listItems db q) db.stats

/-- `GET /api/library/:id` including its store read: with `load = none`
the optional chain yields no item, so the handler answers 404. -/
def getHandler (load : Option LibDB) (gid : String) : ApiResult :=
  match load with
  | none => .err 404 "Item not found"
  | some db =>
    match getItem db gid with
    | some (_, it) => .ok it
    | none => .err 404 "Item not found"

/-- `POST /api/library` including its store IO: the title check precedes
any use of `db`, a null `db` with a valid title throws (`crash`), and
the return value of `saveDB` (`saveOk`) is never consulted — the
response is the same whether the write succeeded or failed. -/
def createHandler (load : Option LibDB) (b : CreateBody) (nid : String) (now : Nat)
    (saveOk : Bool) : ApiResult :=
  match load with
  | some db =>
    match createItem db b nid now with
    | some (_, it) => .ok it
    | none => .err 400 "Title required"
  | none =>
    if jsTruthy (strOr b.title "") then .crash else .err 400 "Title required"

/-- `POST /api/library/upload` including its store IO: a missing file is
400, a null `db` throws, and `saveOk` is never consulted. -/
def uploadHandler (load : Option LibDB) (f : Option UploadedFile) (m : UploadMeta)
    (blob : Option String) (nid : String) (now : Nat) (saveOk : Bool) : ApiResult :=
  match f with
  | none => .err 400 "No file uploaded"
  | some f =>
    match load with
    | none => .crash
    | some db => .ok (uploadItem db f m blob nid now).2

/-! ## Helper lemmas on the store operations -/

/-- Only the operations the fresh-store invariant survives: items of type
`'file'` enter the store through upload, never through `POST /api/library`
(whose body may nevertheless carry `type: 'file'`). -/
def goodOp : Op → Prop
  | .create b _ _ => b.itemType ≠ some "file"
  | .upload _ _ _ _ _ => True
  | .delete _ => True

/-- Auxiliary invariant: an item is of type `'file'` exactly when it
carries a `file` sub-record. -/
def invGood (db : LibDB) : Prop :=
  statsOK db ∧ ∀ i ∈ db.items, (i.itemType = "file" ↔ i.file.isSome)

lemma applyOps_cons (db : LibDB) (op : Op) (ops : List Op) :
    applyOps db (op :: ops) = applyOps (applyOp db op) ops := rfl

lemma recompute_cons (it : Item) (l : List Item) :
    recomputeStats (it :: l) =
      { totalItems := (recomputeStats l).totalItems + 1
        totalFiles := (recomputeStats l).totalFiles + (if it.itemType = "file" then 1 else 0)
        totalLinks := (recomputeStats l).totalLinks + (if it.itemType = "link" then 1 else 0)
        totalSize := (recomputeStats l).totalSize +
          (match it.file with | some f => f.size | none => 0) } := by
  simp only [recomputeStats, List.filter_cons, List.filterMap_cons, Stats.mk.injEq,
    List.length_cons]
  refine ⟨?_, ?_, ?_, ?_⟩
  · push_cast
    ring
  · by_cases h : it.itemType = "file" <;> simp [h] <;> omega
  · by_cases h : it.itemType = "link" <;> simp [h] <;> omega
  · cases hf : it.file <;> simp <;> omega

lemma recompute_perm {l l' : List Item} (h : l.Perm l') :
    recomputeStats l = recomputeStats l' := by
  simp only [recomputeStats, Stats.mk.injEq]
  refine ⟨?_, ?_, ?_, ?_⟩
  · exact_mod_cast h.length_eq
  · exact_mod_cast (h.filter _).length_eq
  · exact_mod_cast (h.filter _).length_eq
  · exact ((h.filterMap Item.file).map FileRec.size).sum_eq

lemma removeFirst_perm (p : Item → Bool) :
    ∀ (l : List Item) (it : Item) (rest : List Item),
      removeFirst p l = some (it, rest) → l.Perm (it :: rest)
  | [], it, rest => by simp [removeFirst]
  | x :: xs, it, rest => by
    intro h
    by_cases hp : p x
    · simp only [removeFirst, hp, if_pos] at h
      obtain ⟨h1, h2⟩ := Prod.mk.injEq .. ▸ (Option.some.injEq .. ▸ h)
      subst h1
      subst h2
      exact List.Perm.refl _
    · rw [removeFirst, if_neg hp] at h
      cases hr : removeFirst p xs with
      | none => rw [hr] at h; simp at h
      | some r =>
        obtain ⟨it', rest'⟩ := r
        rw [hr] at h
        simp only [Option.map_some'] at h
        have h1 : it' = it := congrArg Prod.fst (Option.some.inj h)
        have h2 : x :: rest' = rest := congrArg Prod.snd (Option.some.inj h)
        subst h1
        subst h2
        exact ((removeFirst_perm p xs it' rest' hr).cons x).trans (List.Perm.swap _ _ _)

lemma strOr_note_ne_file {o : Option String} (h : o ≠ some "file") :
    strOr o "note" ≠ "file" := by
  cases o with
  | none => decide
  | some s =>
    by_cases ht : jsTruthy s
    · have hs : strOr (some s) "note" = s := by simp [strOr, ht]
      rw [hs]
      intro he
      exact h (by rw [he])
    · have hs : strOr (some s) "note" = "note" := by simp [strOr, ht]
      rw [hs]
      decide

lemma strOr_note_eq_link_iff {o : Option String} :
    strOr o "note" = "link" ↔ o = some "link" := by
  cases o with
  | none => decide
  | some s =>
    by_cases ht : jsTruthy s
    · have hs : strOr (some s) "note" = s := by simp [strOr, ht]
      rw [hs]
      exact ⟨fun he => by rw [he], fun he => Option.some.inj he⟩
    · have hs : strOr (some s) "note" = "note" := by simp [strOr, ht]
      rw [hs]
      constructor
      · intro he
        exact absurd he (by decide)
      · intro he
        have hsl : s = "link" := Option.some.inj he
        subst hsl
        exact absurd (by decide : jsTruthy "link" = true) ht

lemma invGood_create (db : LibDB) (b : CreateBody) (nid : String) (now : Nat)
    (h : invGood db) (hb : b.itemType ≠ some "file") :
    invGood (applyOp db (.create b nid now)) := by
  simp only [applyOp]
  cases hc : createItem db b nid now with
  | none => exact h
  | some r =>
    obtain ⟨db', it⟩ := r
    rw [createItem] at hc
    split at hc
    case isFalse => exact absurd hc (by simp)
    case isTrue htitle =>
      have hpair := Option.some.inj hc
      have hdb : db' = { items := mkCreateItem b nid now :: db.items,
                         stats := if b.itemType = some "link" then
                             { db.stats with totalItems := db.stats.totalItems + 1,
                                             totalLinks := db.stats.totalLinks + 1 }
                           else { db.stats with totalItems := db.stats.totalItems + 1 } } := by
        have := congrArg Prod.fst hpair
        simp only at this
        rw [← this]
      subst hdb
      have hTf : (mkCreateItem b nid now).itemType ≠ "file" := strOr_note_ne_file hb
      have hFl : (mkCreateItem b nid now).file = none := rfl
      constructor
      · show _ = recomputeStats _
        rw [recompute_cons, ← h.1]
        by_cases hl : b.itemType = some "link"
        · have hTl : (mkCreateItem b nid now).itemType = "link" :=
            strOr_note_eq_link_iff.mpr hl
          simp [hl, hTl, hTf, hFl, Stats.mk.injEq]
        · have hTl : (mkCreateItem b nid now).itemType ≠ "link" :=
            fun he => hl (strOr_note_eq_link_iff.mp he)
          simp [hl, hTl, hTf, hFl, Stats.mk.injEq]
      · intro i hi
        rcases List.mem_cons.mp hi with hi | hi
        · subst hi
          simp [hTf, hFl]
        · exact h.2 i hi

lemma invGood_upload (db : LibDB) (f : UploadedFile) (m : UploadMeta) (blob : Option String)
    (nid : String) (now : Nat) (h : invGood db) :
    invGood (applyOp db (.upload f m blob nid now)) := by
  simp only [applyOp, uploadItem]
  have hT : (mkUploadItem f m blob nid now).itemType = "file" := rfl
  have hF : (mkUploadItem f m blob nid now).file =
      some { originalName := f.originalname, filename := f.filename,
             path := "/uploads/" ++ f.filename, mimetype := f.mimetype, size := f.size } := rfl
  constructor
  · show _ = recomputeStats _
    rw [recompute_cons, ← h.1]
    have hTl : (mkUploadItem f m blob nid now).itemType ≠ "link" := by rw [hT]; decide
    simp [hT, hTl, hF, Stats.mk.injEq]
  · intro i hi
    rcases List.mem_cons.mp hi with hi | hi
    · subst hi
      simp [hT, hF]
    · exact h.2 i hi

lemma invGood_delete (db : LibDB) (did : String) (h : invGood db) :
    invGood (applyOp db (.delete did)) := by
  obtain ⟨items, stats⟩ := db
  obtain ⟨sI, sF, sL, sS⟩ := stats
  simp only [applyOp, deleteItem]
  cases hr : removeFirst (fun i => i.id == did) items with
  | none => simpa using h
  | some r =>
    obtain ⟨it, rest⟩ := r
    have hperm := removeFirst_perm _ items it rest hr
    have hmem : it ∈ items := hperm.mem_iff.mpr (List.mem_cons_self _ _)
    have hiff := h.2 it hmem
    have e : Stats.mk sI sF sL sS = recomputeStats (it :: rest) :=
      h.1.trans (recompute_perm hperm)
    rw [recompute_cons] at e
    refine ⟨?_, fun i hi => h.2 i (hperm.mem_iff.mpr (List.mem_cons_of_mem _ hi))⟩
    show _ = recomputeStats rest
    by_cases hf : it.itemType = "file"
    · obtain ⟨fr, hfr⟩ := Option.isSome_iff_exists.mp (hiff.mp hf)
      have hl : it.itemType ≠ "link" := by rw [hf]; decide
      simp only [hfr, hf, hl, recomputeStats, Stats.mk.injEq, if_true, if_false] at e ⊢
      simp at e ⊢
      refine ⟨by omega, by omega, by omega, by omega⟩
    · have hfn : it.file = none :=
        Option.not_isSome_iff_eq_none.mp (fun hs => hf (hiff.mpr hs))
      by_cases hl : it.itemType = "link"
      · simp only [hfn, hf, hl, recomputeStats, Stats.mk.injEq] at e ⊢
        simp at e ⊢
        refine ⟨by omega, by omega, by omega, by omega⟩
      · simp only [hfn, hf, hl, recomputeStats, Stats.mk.injEq] at e ⊢
        simp at e ⊢
        refine ⟨by omega, by omega, by omega, by omega⟩

instance (db : LibDB) : Decidable (statsOK db) :=
  inferInstanceAs (Decidable (db.stats = recomputeStats db.items))

instance : DecidablePred goodOp := fun op =>
  match op with
  | .create b _ _ => inferInstanceAs (Decidable (b.itemType ≠ some "file"))
  | .upload _ _ _ _ _ => inferInstanceAs (Decidable True)
  | .delete _ => inferInstanceAs (Decidable True)

lemma invGood_applyOp (db : LibDB) (op : Op) (h : invGood db) (hg : goodOp op) :
    invGood (applyOp db op) := by
  cases op with
  | create b nid now => exact invGood_create db b nid now h hg
  | upload f m blob nid now => exact invGood_upload db f m blob nid now h
  | delete did => exact invGood_delete db did h

lemma invGood_applyOps : ∀ (ops : List Op) (db : LibDB), invGood db →
    (∀ op ∈ ops, goodOp op) → invGood (applyOps db ops)
  | [], _, h, _ => h
  | op :: ops, db, h, hg => by
    rw [applyOps_cons]
    exact invGood_applyOps ops _
      (invGood_applyOp db op h (hg op (List.mem_cons_self _ _)))
      (fun o ho => hg o (List.mem_cons_of_mem _ ho))

lemma invGood_empty : invGood emptyDB :=
  ⟨by decide, fun i hi => absurd hi (List.not_mem_nil i)⟩

/-! ## C1 — stats counters versus a from-scratch scan -/

/-- C1 (counterexample): the claim is false as stated.  A single
successful create whose body carries `type: 'file'` (title `"x"`) leaves
`stats.totalFiles = 0` while the store holds one item of type `'file'`:
the handler only ever increments `totalFiles` in the upload route. -/
theorem c1_create_type_file_breaks_stats :
    ¬ statsOK (applyOps emptyDB
      [Op.create { title := some "x", itemType := some "file" } "i1" 0]) := by decide

/-- C1 (amended): for any sequence of create/upload/delete operations
starting from the empty store in which no create request carries
`type: 'file'`, the stored counters `totalItems`, `totalFiles`,
`totalLinks` and `totalSize` equal the values recomputed by scanning
`items` from scratch after every operation (each prefix of the sequence
ends in a consistent store, the failed operations leaving it unchanged). -/
theorem c1_stats_match_recompute (ops : List Op) (h : ∀ op ∈ ops, goodOp op) :
    statsOK (applyOps emptyDB ops) :=
  (invGood_applyOps ops emptyDB invGood_empty h).1

/-- C1 witness: a concrete create-upload-delete run satisfying the
amended hypothesis, ending in a consistent store. -/
theorem c1_stats_match_recompute_witness :
    statsOK (applyOps emptyDB
      [Op.create { title := some "Report A", itemType := some "link" } "a1" 5,
       Op.upload { originalname := "doc.txt", filename := "ab_doc.txt",
                   mimetype := "text/plain", size := 7 } {} (some "hello") "a2" 6,
       Op.delete "a1"]) :=
  c1_stats_match_recompute _ (by decide)

/-! ## C2 — view counting on single-item reads -/

lemma updateFirst_some (p : Item → Bool) (f : Item → Item) :
    ∀ (l l' : List Item) (it : Item),
      updateFirst p f l = some (l', it) →
      ∃ pre x suf, l = pre ++ x :: suf ∧ (∀ y ∈ pre, p y = false) ∧ p x = true ∧
        it = f x ∧ l' = pre ++ f x :: suf
  | [], l', it => by simp [updateFirst]
  | x :: xs, l', it => by
    intro h
    by_cases hp : p x
    · rw [updateFirst, if_pos hp] at h
      have h1 : f x :: xs = l' := congrArg Prod.fst (Option.some.inj h)
      have h2 : f x = it := congrArg Prod.snd (Option.some.inj h)
      exact ⟨[], x, xs, by simp, by simp, hp, h2.symm, by simp [h1.symm]⟩
    · rw [updateFirst, if_neg hp] at h
      cases hr : updateFirst p f xs with
      | none => rw [hr] at h; simp at h
      | some r =>
        rw [hr] at h
        simp only [Option.map_some'] at h
        have h1 : x :: r.1 = l' := congrArg Prod.fst (Option.some.inj h)
        have h2 : r.2 = it := congrArg Prod.snd (Option.some.inj h)
        obtain ⟨pre, y, suf, he, hpre, hpy, hit, hl⟩ := updateFirst_some p f xs r.1 r.2 hr
        refine ⟨x :: pre, y, suf, by rw [he]; simp, ?_, hpy, by rw [← h2, hit],
          by rw [← h1, hl]; simp⟩
        intro z hz
        rcases List.mem_cons.mp hz with hz | hz
        · subst hz
          simpa using hp
        · exact hpre z hz

lemma updateFirst_append (p : Item → Bool) (f : Item → Item) :
    ∀ (pre : List Item) (x : Item) (suf : List Item),
      (∀ y ∈ pre, p y = false) → p x = true →
      updateFirst p f (pre ++ x :: suf) = some (pre ++ f x :: suf, f x)
  | [], x, suf => by
    intro _ hx
    simp [updateFirst, hx]
  | z :: pre, x, suf => by
    intro hpre hx
    have hz : p z = false := hpre z (List.mem_cons_self _ _)
    rw [List.cons_append, updateFirst, if_neg (by simp [hz]),
      updateFirst_append p f pre x suf (fun y hy => hpre y (List.mem_cons_of_mem _ hy)) hx]
    simp

/-- C2 (counterexample): the claim is false as stated.  Creating
`{title: "x"}` (stored `views = 0`) and then reading it once answers the
item with `views = 1`, not `views = 0`: the handler responds with the
item *after* the increment (`item.views = (item.views || 0) + 1` runs
before `res.json(item)`). -/
theorem c2_first_read_views_not_zero :
    ((getItem (applyOps emptyDB [Op.create { title := some "x" } "i1" 0]) "i1").map
        (fun r => r.2.views)) = some 1 ∧
    ((getItem (applyOps emptyDB [Op.create { title := some "x" } "i1" 0]) "i1").map
        (fun r => r.2.views)) ≠ some 0 := by
  constructor
  · decide
  · decide

/-- C2 (amended): the stored item starts at `views = 0`; the *first*
single-item read after create answers the item with `views = 1`, and the
incremented item is in the document persisted before the response; every
subsequent successful read of the same id answers a `views` exactly one
greater than the previous read, again persisted before responding. -/
theorem c2_views_increment :
    (∀ db b nid now db₁ it, createItem db b nid now = some (db₁, it) →
      it.views = 0 ∧
      ∃ db₂, getItem db₁ nid = some (db₂, { it with views := 1 }) ∧
        { it with views := 1 } ∈ db₂.items) ∧
    (∀ db gid db₁ it₁ db₂ it₂,
      getItem db gid = some (db₁, it₁) → getItem db₁ gid = some (db₂, it₂) →
      it₂.views = it₁.views + 1 ∧ it₁ ∈ db₁.items ∧ it₂ ∈ db₂.items) := by
  constructor
  · intro db b nid now db₁ it h
    rw [createItem] at h
    split at h
    case isFalse => exact absurd h (by simp)
    case isTrue =>
      have h1 : { items := mkCreateItem b nid now :: db.items, stats := _ : LibDB } = db₁ :=
        congrArg Prod.fst (Option.some.inj h)
      have h2 : mkCreateItem b nid now = it := congrArg Prod.snd (Option.some.inj h)
      have hitems : db₁.items = mkCreateItem b nid now :: db.items := by rw [← h1]
      have hpmk : ((mkCreateItem b nid now).id == nid) = true := by simp [mkCreateItem]
      have hget : getItem db₁ nid =
          some ({ db₁ with
                    items := { mkCreateItem b nid now with views := 1 } :: db.items },
                { mkCreateItem b nid now with views := 1 }) := by
        rw [getItem, hitems,
          show mkCreateItem b nid now :: db.items = [] ++ mkCreateItem b nid now :: db.items
            from rfl,
          updateFirst_append _ _ [] _ _ (fun y hy => absurd hy (List.not_mem_nil y)) hpmk]
        rfl
      subst h2
      exact ⟨rfl, _, hget, List.mem_cons_self _ _⟩
  · intro db gid db₁ it₁ db₂ it₂ hg1 hg2
    rw [getItem] at hg1
    cases hu1 : updateFirst (fun i => i.id == gid) (fun i => { i with views := i.views + 1 })
        db.items with
    | none => rw [hu1] at hg1; simp at hg1
    | some r1 =>
      rw [hu1] at hg1
      simp only [Option.map_some'] at hg1
      have e1 : { db with items := r1.1 : LibDB } = db₁ := congrArg Prod.fst (Option.some.inj hg1)
      have e2 : r1.2 = it₁ := congrArg Prod.snd (Option.some.inj hg1)
      obtain ⟨pre, x, suf, hsplit, hpre, hpx, hit, hl⟩ :=
        updateFirst_some _ _ db.items r1.1 r1.2 hu1
      have hdb₁ : db₁.items = pre ++ { x with views := x.views + 1 } :: suf := by
        rw [← e1]
        exact hl
      have hpx' : ((({ x with views := x.views + 1 } : Item)).id == gid) = true := hpx
      have hg2' : getItem db₁ gid =
          some ({ db₁ with items := pre ++ { x with views := x.views + 1 + 1 } :: suf },
            { x with views := x.views + 1 + 1 }) := by
        rw [getItem, hdb₁, updateFirst_append _ _ pre _ suf hpre hpx']
        rfl
      rw [hg2'] at hg2
      have f1 : ({ db₁ with items := pre ++ { x with views := x.views + 1 + 1 } :: suf : LibDB })
          = db₂ := congrArg Prod.fst (Option.some.inj hg2)
      have f2 : ({ x with views := x.views + 1 + 1 } : Item) = it₂ :=
        congrArg Prod.snd (Option.some.inj hg2)
      refine ⟨?_, ?_, ?_⟩
      · rw [← f2, ← e2, hit]
      · rw [← e2, hit, hdb₁]
        exact List.mem_append_right _ (List.mem_cons_self _ _)
      · rw [← f2, ← f1]
        exact List.mem_append_right _ (List.mem_cons_self _ _)

/-- The store after creating one note with id `"i1"`. -/
def c2db : LibDB := applyOps emptyDB [Op.create { title := some "x" } "i1" 0]

/-- Result of the first read of `"i1"` (exists by computation). -/
def c2r1 : LibDB × Item := (getItem c2db "i1").get (by decide)

/-- Result of the second read of `"i1"` (exists by computation). -/
def c2r2 : LibDB × Item := (getItem c2r1.1 "i1").get (by decide)

/-- C2 witness: the create-then-read-twice run on the concrete store,
with the second read answering one more view than the first. -/
theorem c2_views_increment_witness :
    getItem c2db "i1" = some (c2r1.1, c2r1.2) ∧
    getItem c2r1.1 "i1" = some (c2r2.1, c2r2.2) ∧
    c2r2.2.views = c2r1.2.views + 1 := by
  have h₁ : getItem c2db "i1" = some (c2r1.1, c2r1.2) := (Option.some_get (by decide)).symm
  have h₂ : getItem c2r1.1 "i1" = some (c2r2.1, c2r2.2) := (Option.some_get (by decide)).symm
  exact ⟨h₁, h₂, (c2_views_increment.2 _ _ _ _ _ _ h₁ h₂).1⟩

/-! ## C3 — pagination -/

lemma drop_take_clamp {α : Type} (xs : List α) (o l : Nat) :
    (xs.drop (min o xs.length)).take (min (o + l) xs.length - min o xs.length) =
      (xs.drop o).take l := by
  rcases le_total o xs.length with h | h
  · rw [min_eq_left h]
    apply List.take_eq_take.mpr
    rw [List.length_drop]
    omega
  · rw [min_eq_right h, min_eq_right (by omega : xs.length ≤ o + l), Nat.sub_self]
    rw [List.drop_eq_nil_of_le h, List.drop_eq_nil_of_le (le_refl _)]
    simp

lemma jsSlice_nonneg {α : Type} (xs : List α) (o l : Nat) :
    jsSlice xs (o : Int) ((o : Int) + (l : Int)) = (xs.drop o).take l := by
  simp only [jsSlice]
  rw [if_neg (by omega : ¬ ((o : Int) < 0)), if_neg (by omega : ¬ ((o : Int) + (l : Int) < 0))]
  have hs : (min (o : Int) (xs.length : Int)).toNat = min o xs.length := by omega
  have he : (min ((o : Int) + (l : Int)) (xs.length : Int) -
      min (o : Int) (xs.length : Int)).toNat = min (o + l) xs.length - min o xs.length := by
    omega
  rw [hs, he]
  exact drop_take_clamp xs o l

/-- A one-item store for exercising pagination. -/
def c3db : LibDB := applyOps emptyDB [Op.create { title := some "t" } "i1" 0]

/-- A three-item store for exercising pagination windows. -/
def c3db3 : LibDB := applyOps emptyDB
  [Op.create { title := some "a" } "i1" 1,
   Op.create { title := some "b" } "i2" 2,
   Op.create { title := some "c" } "i3" 3]

/-- C3 (counterexample): the claim is false as stated.  `limit=0` is a
non-negative integer, whose window `[0, 0)` is empty, but
`parseInt(limit) || 50` treats the parsed `0` as falsy and substitutes
the default 50: on a one-item store the endpoint returns the item. -/
theorem c3_limit_zero_returns_default_window :
    (listItems c3db { limit := some "0", offset := some "0" }).items.length = 1 ∧
    (listItems c3db { limit := some "0", offset := some "0" }).items ≠
      ((sortStage none (filterStage { limit := some "0", offset := some "0" } c3db.items)).drop
        0).take 0 := by
  constructor
  · decide
  · decide

/-- C3 (amended): whenever the effective offset `parseInt(offset) || 0`
evaluates to a non-negative integer `o` and the effective limit
`parseInt(limit) || 50` to a non-negative integer `l`, the list
operation returns the contiguous window `[o, o+l)` of the
filtered-and-sorted sequence (so an out-of-range offset yields an empty
result, not an error), with `total` the filtered-and-sorted count
before pagination and the effective values echoed in the response; an
absent or unparsable offset defaults to 0, an absent or unparsable
limit defaults to 50, and a limit parsing to 0 is likewise replaced by
the default 50 rather than producing an empty window. -/
theorem c3_pagination_window :
    (∀ (db : LibDB) (q : ListQuery) (o l : Nat),
      parseIntOr q.offset 0 = (o : Int) → parseIntOr q.limit 50 = (l : Int) →
      (listItems db q).items =
        ((sortStage q.sort (filterStage q db.items)).drop o).take l ∧
      (listItems db q).total = (sortStage q.sort (filterStage q db.items)).length ∧
      (listItems db q).offset = (o : Int) ∧ (listItems db q).limit = (l : Int)) ∧
    (∀ (db : LibDB) (q : ListQuery), q.offset = none → q.limit = none →
      (listItems db q).offset = 0 ∧ (listItems db q).limit = 50 ∧
      (listItems db q).items =
        ((sortStage q.sort (filterStage q db.items)).drop 0).take 50) ∧
    (∀ (db : LibDB) (q : ListQuery) (so sl : String),
      q.offset = some so → parseIntJS so = none →
      q.limit = some sl → parseIntJS sl = none →
      (listItems db q).offset = 0 ∧ (listItems db q).limit = 50 ∧
      (listItems db q).items =
        ((sortStage q.sort (filterStage q db.items)).drop 0).take 50) ∧
    (∀ (db : LibDB) (q : ListQuery) (sl : String),
      q.limit = some sl → parseIntJS sl = some 0 → (listItems db q).limit = 50) := by
  have hwin : ∀ (db : LibDB) (q : ListQuery) (o l : Nat),
      parseIntOr q.offset 0 = (o : Int) → parseIntOr q.limit 50 = (l : Int) →
      (listItems db q).items =
        ((sortStage q.sort (filterStage q db.items)).drop o).take l ∧
      (listItems db q).total = (sortStage q.sort (filterStage q db.items)).length ∧
      (listItems db q).offset = (o : Int) ∧ (listItems db q).limit = (l : Int) := by
    intro db q o l hpo hpl
    unfold listItems
    rw [hpo, hpl]
    exact ⟨jsSlice_nonneg _ o l, rfl, rfl, rfl⟩
  refine ⟨hwin, ?_, ?_, ?_⟩
  · intro db q ho hl
    have h := hwin db q 0 50 (by rw [ho]; rfl) (by rw [hl]; rfl)
    exact ⟨h.2.2.1, h.2.2.2, h.1⟩
  · intro db q so sl hso hpso hsl hpsl
    have h := hwin db q 0 50 (by rw [hso]; simp [parseIntOr, hpso])
      (by rw [hsl]; simp [parseIntOr, hpsl])
    exact ⟨h.2.2.1, h.2.2.2, h.1⟩
  · intro db q sl hsl hpsl
    show parseIntOr q.limit 50 = 50
    rw [hsl]
    simp [parseIntOr, hpsl]

/-- C3 witness: on the three-item store, `offset=1&limit=2` returns the
window `[1, 3)` of the sorted sequence; an empty query defaults to
offset 0 and limit 50; an unparsable pair defaults the same way; and
`limit=0` is replaced by the default 50. -/
theorem c3_pagination_window_witness :
    (listItems c3db3 { offset := some "1", limit := some "2" }).items =
      ((sortStage none (filterStage { offset := some "1", limit := some "2" } c3db3.items)).drop
        1).take 2 ∧
    ((listItems c3db3 {}).offset = 0 ∧ (listItems c3db3 {}).limit = 50) ∧
    ((listItems c3db3 { offset := some "x", limit := some "y" }).offset = 0 ∧
      (listItems c3db3 { offset := some "x", limit := some "y" }).limit = 50) ∧
    (listItems c3db3 { limit := some "0" }).limit = 50 := by
  have h1 := (c3_pagination_window.1) c3db3 { offset := some "1", limit := some "2" } 1 2
    (by decide) (by decide)
  have h2 := (c3_pagination_window.2.1) c3db3 {} rfl rfl
  have h3 := (c3_pagination_window.2.2.1) c3db3 { offset := some "x", limit := some "y" }
    "x" "y" rfl (by decide) rfl (by decide)
  have h4 := (c3_pagination_window.2.2.2) c3db3 { limit := some "0" } "0" rfl (by decide)
  exact ⟨h1.1, ⟨h2.1, h2.2.1⟩, ⟨h3.1, h3.2.1⟩, h4⟩

/-! ## C4 — search semantics -/

/-- The search predicate exactly as the claim words it: the query is a
case-insensitive substring of the title, of the description, of some
element of `tags`, or of the content; absent optional fields are
non-matching. -/
def specSearchMatch (s : String) (i : Item) : Prop :=
  strIncludes (lowerStr i.title) (lowerStr s) = true ∨
  strIncludes (lowerStr i.description) (lowerStr s) = true ∨
  (∃ t ∈ i.tags, strIncludes (lowerStr t) (lowerStr s) = true) ∨
  (∃ c ∈ i.content, strIncludes (lowerStr c) (lowerStr s) = true)

instance (s : String) (i : Item) : Decidable (specSearchMatch s i) := by
  unfold specSearchMatch
  infer_instance

/-- The item whose only occurrence of "ukraine" is in `textPreview`. -/
def c4item : Item :=
  { id := "u1", itemType := "file", title := "x", description := "", category := "other",
    tags := [], textPreview := some "ukraine report", created := 0, views := 0,
    starred := false }

/-- A store holding only `c4item`. -/
def c4db : LibDB := { items := [c4item], stats := emptyDB.stats }

/-- C4 (counterexample): the claim is false as stated for the dedicated
search endpoint, which it cites: `GET /api/search?q=ukraine` also
matches on `textPreview`, so it returns an item whose title,
description, tags and content all lack "ukraine". -/
theorem c4_search_endpoint_matches_preview :
    (apiSearch c4db "ukraine").1 = [c4item] ∧ ¬ specSearchMatch "ukraine" c4item := by
  constructor
  · decide
  · decide

/-- C4 (amended): the *list* endpoint's search filter matches exactly
the items for which the query is a case-insensitive substring of title,
description, some tag, or content (absent optional fields non-matching),
and a non-empty `search` parameter filters the collection by exactly
that predicate; the dedicated search endpoint however matches those
items *or* any item whose `textPreview` contains the query. -/
theorem c4_search_fields :
    (∀ (s : String) (i : Item), itemMatchesSearch s i = true ↔ specSearchMatch s i) ∧
    (∀ (s : String) (i : Item), searchEndpointMatch s i = true ↔
      (specSearchMatch s i ∨
        ∃ c ∈ i.textPreview, strIncludes (lowerStr c) (lowerStr s) = true)) ∧
    (∀ (db : LibDB) (s : String), s ≠ "" →
      filterStage { search := some s } db.items = db.items.filter (itemMatchesSearch s)) := by
  refine ⟨?_, ?_, ?_⟩
  · intro s i
    unfold itemMatchesSearch specSearchMatch
    cases i.content <;> simp [List.any_eq_true, or_assoc]
  · intro s i
    unfold searchEndpointMatch specSearchMatch
    cases i.content <;> cases i.textPreview <;> simp [List.any_eq_true, or_assoc] <;> tauto
  · intro db s hs
    have h2 : s.isEmpty = false := by
      rw [← Bool.not_eq_true]
      exact fun h => hs ((String.isEmpty_iff s).mp h)
    have ht : jsTruthy s = true := by
      unfold jsTruthy
      rw [h2]
      rfl
    simp [filterStage, ht]

/-- C4 witness: filtering the one-item store by the non-empty query
"ukraine" applies exactly the four-field predicate (which rejects the
preview-only item). -/
theorem c4_search_fields_witness :
    filterStage { search := some "ukraine" } c4db.items =
      c4db.items.filter (itemMatchesSearch "ukraine") :=
  c4_search_fields.2.2 c4db "ukraine" (by decide)

/-! ## C5 — partial update frame -/

/-- A store holding one note with id `"i1"`, a `url`, and full metadata. -/
def c5db : LibDB := applyOps emptyDB
  [Op.create { title := some "old title", description := some "old desc",
               url := some "http://orig", content := some "old content",
               category := some "reports", tags := some ["a", "b"],
               country := some "UA", source := some "osint" } "i1" 10]

/-- Update body supplying only a new `url`: the handler never reads it. -/
def c5bodyUrl : UpdateBody := { url := some (some "http://new") }

/-- Update body supplying only a new `title`. -/
def c5bodyTitle : UpdateBody := { title := some "new title" }

/-- The single item stored in `c5db`. -/
def c5item : Item := mkCreateItem
  { title := some "old title", description := some "old desc",
    url := some "http://orig", content := some "old content",
    category := some "reports", tags := some ["a", "b"],
    country := some "UA", source := some "osint" } "i1" 10

/-- C5 (counterexample): the claim is false as stated.  The update body
explicitly carries `url`, yet after the update the item's `url` is its
prior value (`http://orig`), not the supplied one: the handler
destructures only `title, description, category, tags, country, source,
content, starred` from the body and never reads `url`. -/
theorem c5_url_field_ignored :
    c5bodyUrl.url = some (some "http://new") ∧
    (updateItem c5db "i1" c5bodyUrl 99).map (fun r => r.2.url) =
      some (some "http://orig") := by
  constructor
  · decide
  · decide

/-- C5 (amended): update overwrites exactly the fields present among
`title, description, category, tags, country, source, content, starred`
and no others; every other field — including `id`, `created`, and even
an explicitly supplied `url` — retains its prior value, `updated` is set
to the current time, the untouched items are unchanged, and the change
is persisted (the stored list holds the responded item in place). -/
theorem c5_update_frame (db : LibDB) (uid : String) (b : UpdateBody) (now : Nat)
    (pre : List Item) (x : Item) (suf : List Item)
    (hsplit : db.items = pre ++ x :: suf)
    (hpre : ∀ y ∈ pre, (y.id == uid) = false) (hx : (x.id == uid) = true) :
    updateItem db uid b now =
      some ({ db with items := pre ++ applyUpdate b now x :: suf }, applyUpdate b now x) ∧
    (applyUpdate b now x).id = x.id ∧
    (applyUpdate b now x).created = x.created ∧
    (applyUpdate b now x).url = x.url ∧
    (applyUpdate b now x).itemType = x.itemType ∧
    (applyUpdate b now x).fileType = x.fileType ∧
    (applyUpdate b now x).file = x.file ∧
    (applyUpdate b now x).textPreview = x.textPreview ∧
    (applyUpdate b now x).views = x.views ∧
    (applyUpdate b now x).title = b.title.getD x.title ∧
    (applyUpdate b now x).description = b.description.getD x.description ∧
    (applyUpdate b now x).category = b.category.getD x.category ∧
    (applyUpdate b now x).tags = b.tags.getD x.tags ∧
    (applyUpdate b now x).country = b.country.getD x.country ∧
    (applyUpdate b now x).source = b.source.getD x.source ∧
    (applyUpdate b now x).content = b.content.getD x.content ∧
    (applyUpdate b now x).starred = b.starred.getD x.starred ∧
    (applyUpdate b now x).updated = some now := by
  refine ⟨?_, rfl, rfl, rfl, rfl, rfl, rfl, rfl, rfl, rfl, rfl, rfl, rfl, rfl, rfl, rfl,
    rfl, rfl⟩
  rw [updateItem, hsplit, updateFirst_append _ _ pre x suf hpre hx]
  rfl

/-- C5 witness: updating only `title` on the concrete store, checked
against the frame conditions. -/
theorem c5_update_frame_witness :
    updateItem c5db "i1" c5bodyTitle 99 =
      some ({ c5db with items := [] ++ applyUpdate c5bodyTitle 99 c5item :: [] },
            applyUpdate c5bodyTitle 99 c5item) ∧
    (applyUpdate c5bodyTitle 99 c5item).url = c5item.url ∧
    (applyUpdate c5bodyTitle 99 c5item).title = c5bodyTitle.title.getD c5item.title ∧
    (applyUpdate c5bodyTitle 99 c5item).updated = some 99 := by
  have h := c5_update_frame c5db "i1" c5bodyTitle 99 [] c5item []
    (by decide) (by decide) (by decide)
  exact ⟨h.1, h.2.2.2.1, h.2.2.2.2.2.2.2.2.2.1, h.2.2.2.2.2.2.2.2.2.2.2.2.2.2.2.2.2⟩

/-! ## C6 — store IO failures -/

/-- C6 (counterexample): the claim is false as stated.  A failed
`saveDB` during `POST /api/library` (`saveOk = false`, a write
`StoreIOError`) still produces the success response with the created
item; no 500 error is returned because every caller ignores `saveDB`'s
return value. -/
theorem c6_save_failure_still_success :
    createHandler (some emptyDB) { title := some "x" } "i1" 0 false =
      ApiResult.ok (mkCreateItem { title := some "x" } "i1" 0) ∧
    createHandler (some emptyDB) { title := some "x" } "i1" 0 false ≠
      ApiResult.err 500 "Database error" := by
  constructor
  · decide
  · decide

/-- C6 (amended): a *read* failure of the library document is surfaced
as 500 with an error body on the list endpoint (and, divergently from
the claim, as 404 on the single-item read); *write* failures are never
surfaced: the create and upload handlers produce the identical response
whether the save succeeded or failed. -/
theorem c6_io_error_surfacing :
    (∀ q, listHandler none q = ApiResult.err 500 "Database error") ∧
    (∀ gid, getHandler none gid = ApiResult.err 404 "Item not found") ∧
    (∀ load b nid now, createHandler load b nid now true = createHandler load b nid now false) ∧
    (∀ load f m blob nid now,
      uploadHandler load f m blob nid now true = uploadHandler load f m blob nid now false) :=
  ⟨fun _ => rfl, fun _ => rfl, fun _ _ _ _ => rfl, fun _ _ _ _ _ _ => rfl⟩

/-! ## C7 — category slugs -/

lemma char_le_iff_toNat (a b : Char) : a ≤ b ↔ a.toNat ≤ b.toNat := by
  rw [Char.le_def, UInt32.le_def, BitVec.le_def]
  rfl

lemma toLower_toNat (c : Char) : (Char.toLower c).toNat =
    if c.toNat ≥ 65 ∧ c.toNat ≤ 90 then c.toNat + 32 else c.toNat := by
  show (if c.toNat ≥ 65 ∧ c.toNat ≤ 90 then Char.ofNat (c.toNat + 32) else c).toNat = _
  by_cases h : c.toNat ≥ 65 ∧ c.toNat ≤ 90
  · rw [if_pos h, if_pos h]
    have hv : (c.toNat + 32).isValidChar := Or.inl (by omega)
    rw [show Char.ofNat (c.toNat + 32) = Char.ofNatAux (c.toNat + 32) hv from dif_pos hv]
    show (BitVec.ofNatLt (c.toNat + 32) _).toNat = _
    rw [BitVec.toNat_ofNatLt]
  · rw [if_neg h, if_neg h]

lemma not_upper_toLower (c : Char) : ¬ ('A' ≤ c.toLower ∧ c.toLower ≤ 'Z') := by
  rw [char_le_iff_toNat, char_le_iff_toNat, toLower_toNat]
  have h1 : ('A' : Char).toNat = 65 := rfl
  have h2 : ('Z' : Char).toNat = 90 := rfl
  rw [h1, h2]
  split <;> omega

/-- The slug as the claim words it: lowercase the name, then replace
every character that is not an (ASCII) alphanumeric — lowercase letter,
uppercase letter, or digit — with a hyphen. -/
def slugSpec (name : String) : String :=
  ⟨(lowerStr name).data.map
    (fun d => if ('a' ≤ d ∧ d ≤ 'z') ∨ ('A' ≤ d ∧ d ≤ 'Z') ∨ ('0' ≤ d ∧ d ≤ '9')
        then d else '-')⟩

lemma slugify_eq_slugSpec (name : String) : slugify name = slugSpec name := by
  simp only [slugify, slugSpec, lowerStr, List.map_map]
  refine congrArg (fun l => (⟨l⟩ : String)) (List.map_congr_left ?_)
  intro c _
  simp only [Function.comp_apply]
  have hnu := not_upper_toLower c
  by_cases h : ('a' ≤ c.toLower ∧ c.toLower ≤ 'z') ∨ ('0' ≤ c.toLower ∧ c.toLower ≤ '9')
  · rw [if_pos h, if_pos (by tauto)]
  · rw [if_neg h, if_neg (by tauto)]

/-- C7 (counterexample): the claim is false as stated.  Re-submitting
the name "News" does not overwrite the prior entry: `addCategory`
unconditionally pushes, leaving two entries with the same id `"news"`. -/
theorem c7_resubmit_appends_duplicate :
    ((addCategory (addCategory [] "News" none none).1 "News" none none).1.map Category.id) =
      ["news", "news"] ∧
    (addCategory (addCategory [] "News" none none).1 "News" none none).1.length ≠ 1 := by
  constructor
  · decide
  · decide

/-- C7 (amended): `addCategory` assigns the deterministic slug id
obtained by lowercasing the name and replacing every non-alphanumeric
character with a hyphen; but re-submitting the same name *appends a
second entry* with the same id rather than overwriting the prior one. -/
theorem c7_slug_deterministic (cats : List Category) (name : String)
    (icon color : Option String) :
    (addCategory cats name icon color).2.id = slugSpec name ∧
    (addCategory cats name icon color).1 = cats ++ [(addCategory cats name icon color).2] :=
  ⟨slugify_eq_slugSpec name, rfl⟩

/-- C7 witness: adding "Open-Source Intel!" yields the slug
`open-source-intel-` and appends to the seed list. -/
theorem c7_slug_deterministic_witness :
    (addCategory [] "Open-Source Intel!" none none).2.id = slugSpec "Open-Source Intel!" ∧
    (addCategory [] "Open-Source Intel!" none none).1 =
      [] ++ [(addCategory [] "Open-Source Intel!" none none).2] :=
  c7_slug_deterministic [] "Open-Source Intel!" none none

/-! ## C8 — sort orders -/

lemma jsSlice_sublist {α : Type} (l : List α) (a b : Int) : (jsSlice l a b).Sublist l := by
  simp only [jsSlice]
  exact (List.take_sublist _ _).trans (List.drop_sublist _ _)

/-- C8: `sort=oldest` yields the page in non-decreasing `created` order,
`sort=title` in lexicographically ascending `title` order, and any other
value of `sort` — including an absent one — in non-increasing `created`
order (newest first). -/
theorem c8_sort_orders (db : LibDB) (q : ListQuery) :
    (q.sort = some "oldest" → List.Sorted createdLE (listItems db q).items) ∧
    (q.sort = some "title" → List.Sorted titleLE (listItems db q).items) ∧
    (q.sort ≠ some "oldest" → q.sort ≠ some "title" →
      List.Sorted createdGE (listItems db q).items) := by
  refine ⟨?_, ?_, ?_⟩
  · intro h
    have hs : List.Sorted createdLE (sortStage q.sort (filterStage q db.items)) := by
      rw [sortStage, if_pos h]
      exact List.sorted_insertionSort _ _
    exact List.Pairwise.sublist (jsSlice_sublist _ _ _) hs
  · intro h
    have hs : List.Sorted titleLE (sortStage q.sort (filterStage q db.items)) := by
      rw [sortStage, if_neg (by rw [h]; simp), if_pos h]
      exact List.sorted_insertionSort _ _
    exact List.Pairwise.sublist (jsSlice_sublist _ _ _) hs
  · intro h1 h2
    have hs : List.Sorted createdGE (sortStage q.sort (filterStage q db.items)) := by
      rw [sortStage, if_neg h1, if_neg h2]
      exact List.sorted_insertionSort _ _
    exact List.Pairwise.sublist (jsSlice_sublist _ _ _) hs

/-- C8 witness: the three-item store listed with `sort=oldest` comes
back in non-decreasing `created` order. -/
theorem c8_sort_orders_witness :
    List.Sorted createdLE (listItems c3db3 { sort := some "oldest" }).items :=
  (c8_sort_orders c3db3 { sort := some "oldest" }).1 rfl

/-! ## C9 — upload storage filenames -/

lemma toNat_ofNat_valid (n : Nat) (h : n < 55296) : (Char.ofNat n).toNat = n := by
  have hv : n.isValidChar := Or.inl h
  rw [show Char.ofNat n = Char.ofNatAux n hv from dif_pos hv]
  show (BitVec.ofNatLt n _).toNat = n
  rw [BitVec.toNat_ofNatLt]

lemma hexDigit_toNat (n : Nat) (h : n < 16) :
    (hexDigit n).toNat = if n < 10 then 48 + n else 87 + n := by
  unfold hexDigit
  split
  · rw [toNat_ofNat_valid _ (by omega)]
  · rw [toNat_ofNat_valid _ (by omega)]

lemma mem_hexEncode {c : Char} :
    ∀ {bs : List (Fin 256)}, c ∈ (hexEncode bs).data → ∃ n, n < 16 ∧ c = hexDigit n
  | [], h => by simp [hexEncode] at h
  | b :: bs, h => by
    simp only [hexEncode, List.foldr_cons] at h
    rcases List.mem_append.mp h with h | h
    · simp only [byteToHex, List.mem_cons, List.not_mem_nil, or_false] at h
      rcases h with h | h
      · exact ⟨b.val / 16, by omega, h⟩
      · exact ⟨b.val % 16, by omega, h⟩
    · exact mem_hexEncode h

lemma mem_sanitize {c : Char} {s : String} (h : c ∈ (sanitizeName s).data) :
    c.toNat ≠ 47 ∧ c.toNat ≠ 92 := by
  simp only [sanitizeName, List.mem_map] at h
  obtain ⟨d, _, hd⟩ := h
  subst hd
  split
  case isTrue h' =>
    rcases h' with ⟨ha, hz⟩ | ⟨hA, hZ⟩ | ⟨h0, h9⟩ | hdot | hdash
    · rw [char_le_iff_toNat, show ('a' : Char).toNat = 97 from rfl] at ha
      rw [char_le_iff_toNat, show ('z' : Char).toNat = 122 from rfl] at hz
      constructor <;> omega
    · rw [char_le_iff_toNat, show ('A' : Char).toNat = 65 from rfl] at hA
      rw [char_le_iff_toNat, show ('Z' : Char).toNat = 90 from rfl] at hZ
      constructor <;> omega
    · rw [char_le_iff_toNat, show ('0' : Char).toNat = 48 from rfl] at h0
      rw [char_le_iff_toNat, show ('9' : Char).toNat = 57 from rfl] at h9
      constructor <;> omega
    · subst hdot
      exact ⟨by decide, by decide⟩
    · subst hdash
      exact ⟨by decide, by decide⟩
  case isFalse => exact ⟨by decide, by decide⟩

/-- C9: with an 8-byte random token, the storage filename is the hex
token, an underscore, and the original name with every character outside
`[A-Za-z0-9.-]` replaced by `_`; it contains no path separator (`/` or
`\`), so the blob always lands inside the uploads directory. -/
theorem c9_storage_filename_safe (bs : List (Fin 256)) (name : String)
    (h : bs.length = 8) :
    storageFilename bs name = hexEncode bs ++ "_" ++ sanitizeName name ∧
    '/' ∉ (storageFilename bs name).data ∧ '\\' ∉ (storageFilename bs name).data := by
  refine ⟨rfl, ?_, ?_⟩ <;>
  · intro hmem
    rw [storageFilename, String.data_append, String.data_append] at hmem
    rcases List.mem_append.mp hmem with hmem | hmem
    rcases List.mem_append.mp hmem with hmem | hmem
    · obtain ⟨n, hn, he⟩ := mem_hexEncode hmem
      have := hexDigit_toNat n hn
      have h47 := congrArg Char.toNat he.symm
      rw [this] at h47
      revert h47
      split <;> intro h47 <;> simp at h47 <;> omega
    · simp at hmem
    · have hc := mem_sanitize hmem
      simp at hc

/-- A concrete 8-byte random token. -/
def c9bytes : List (Fin 256) := [1, 35, 69, 103, 137, 171, 205, 239]

/-- C9 witness: a traversal-shaped original name is neutralised. -/
theorem c9_storage_filename_safe_witness :
    storageFilename c9bytes "../../etc/passwd" =
      hexEncode c9bytes ++ "_" ++ sanitizeName "../../etc/passwd" ∧
    '/' ∉ (storageFilename c9bytes "../../etc/passwd").data ∧
    '\\' ∉ (storageFilename c9bytes "../../etc/passwd").data :=
  c9_storage_filename_safe c9bytes "../../etc/passwd" (by decide)

/-! ## C10 — uploads do not require a title -/

/-- A concrete uploaded text file. -/
def c10file : UploadedFile :=
  { originalname := "notes.txt", filename := "abcd_notes.txt",
    mimetype := "text/plain", size := 5 }

/-- C10: an upload whose metadata omits `title` succeeds (no
`InvalidInput`), the created item taking the uploaded file's original
filename as its title — unlike create, which rejects a missing title
with 400 `Title required`. -/
theorem c10_upload_title_optional (db : LibDB) (f : UploadedFile) (m : UploadMeta)
    (blob : Option String) (nid : String) (now : Nat) (saveOk : Bool)
    (h : m.title = none) :
    uploadHandler (some db) (some f) m blob nid now saveOk =
      ApiResult.ok (mkUploadItem f m blob nid now) ∧
    (mkUploadItem f m blob nid now).title = f.originalname ∧
    (∀ load b nid2 now2 s, b.title = none →
      createHandler load b nid2 now2 s = ApiResult.err 400 "Title required") := by
  refine ⟨rfl, ?_, ?_⟩
  · show strOr m.title f.originalname = f.originalname
    rw [h]
    rfl
  · intro load b nid2 now2 s hb
    have ht : jsTruthy (strOr b.title "") = false := by
      rw [hb]
      rfl
    cases load with
    | none => simp [createHandler, ht]
    | some db2 => simp [createHandler, createItem, ht]

/-- C10 witness: the concrete title-less upload succeeds with the
original filename as title while the title-less create is rejected. -/
theorem c10_upload_title_optional_witness :
    uploadHandler (some emptyDB) (some c10file) {} (some "ukraine text") "u1" 3 true =
      ApiResult.ok (mkUploadItem c10file {} (some "ukraine text") "u1" 3) ∧
    (mkUploadItem c10file {} (some "ukraine text") "u1" 3).title = c10file.originalname ∧
    createHandler (some emptyDB) {} "c1" 4 true = ApiResult.err 400 "Title required" := by
  have h := c10_upload_title_optional emptyDB c10file {} (some "ukraine text") "u1" 3 true rfl
  exact ⟨h.1, h.2.1, h.2.2 (some emptyDB) {} "c1" 4 true rfl⟩
